import Mathlib

/-!
# bing-wallpaper: a shallow embedding of `bing-wallpaper.go`

The program is a linear pipeline: probe the service, fetch and parse the
image metadata, download the image, set the desktop background, prune old
images.  Every function of the program that talks to the outside (network,
file system, clock, standard output) is embedded as a pure function of a
`World` of oracles, one per library call, and returns how the call ends
together with the list of library calls it made, in order.

Go strings are modelled by `String` (file names and URLs are taken to be
valid UTF-8); the byte-level library functions (`path.Base`, `path.Clean`,
`strings.HasSuffix`) only compare against the ASCII bytes `/` and `.` and the
literal `.jpg`, so they are run on the list of characters.  The keep count of
`cleanup` is a natural number: a negative `keeps` makes the slice bound exceed
the length, and what Go does then depends on the capacity of the slice.  The
deferred `Close` calls have no effect that the properties below speak about
and are left out.
-/

namespace BingWallpaper

set_option maxRecDepth 100000

/-! ## Library functions on strings -/

/-- Go `unicode.ToLower` as far as its result can be an ASCII letter: the
ASCII capitals, and the two capitals outside ASCII whose lower case is ASCII
(U+0130 to `i`, U+212A to `k`).  Every other character outside ASCII is
mapped by Go to a character outside ASCII; it is left as it is here. -/
def toLowerRune (c : Char) : Char :=
  if c.toNat = 0x130 then 'i'
  else if c.toNat = 0x212A then 'k'
  else c.toLower

/-- Go `strings.ToLower`: every character mapped by `unicode.ToLower`. -/
def toLower (s : String) : String :=
  String.mk (s.data.map toLowerRune)

/-- Go `strings.HasSuffix`:
`len(s) >= len(suffix) && s[len(s)-len(suffix):] == suffix`. -/
def hasSuffix (s suffix : String) : Bool :=
  decide (s.data.length ≥ suffix.data.length) &&
    decide (s.data.drop (s.data.length - suffix.data.length) = suffix.data)

/-- Index of the last `/` of a path (Go `strings.LastIndex(path, "/")`),
counted on the reversed path: the characters after the last slash. -/
def afterLastSlash (p : List Char) : List Char :=
  (p.reverse.takeWhile (fun c => c != '/')).reverse

/-- Go `path.Base` on the characters of the path. -/
def baseChars (p : List Char) : List Char :=
  if p = [] then ['.']
  else
    -- Strip trailing slashes.
    let p := (p.reverse.dropWhile (fun c => c == '/')).reverse
    -- Find the last element.
    let p := afterLastSlash p
    -- If empty now, it had only slashes.
    if p = [] then ['/'] else p

/-- Go `path.Base`. -/
def pathBase (p : String) : String :=
  String.mk (baseChars p.data)

/-- The state of the loop of Go `path.Clean`: the output buffer `out`
(`out.w` is its length) and `dotdot`, the index in the buffer where a `..`
element must stop backtracking. -/
structure CleanState where
  out : List Char
  dotdot : Nat
deriving DecidableEq, Repr

/-- The backtracking of `path.Clean` on a `..` element, after its first
`out.w--`: `for out.w > dotdot && out.index(out.w) != '/' { out.w-- }`.
`buf` is the buffer up to `out.w` and `removed` is `out.index(out.w)`, the
character that the last decrement dropped. -/
def cleanBacktrack (dotdot : Nat) : (fuel : Nat) → List Char → Char → List Char
  | 0, buf, _ => buf
  | fuel + 1, buf, removed =>
    if buf.length > dotdot && removed != '/' then
      cleanBacktrack dotdot fuel buf.dropLast (buf.getLast?.getD '/')
    else buf

/-- The main loop of Go `path.Clean` over the unread part `rest` of the path
(`path[r:]`).  Every iteration reads at least one character, so `fuel` equal
to the length of the unread part is enough (`cleanLoop_fuel`).  In the
backtracking the fuel is the length of the buffer (`cleanBacktrack_fuel`). -/
def cleanLoop (rooted : Bool) : (fuel : Nat) → List Char → CleanState → CleanState
  | 0, _, st => st
  | _ + 1, [], st => st
  | fuel + 1, c :: rest, st =>
    if c = '/' then
      -- empty path element
      cleanLoop rooted fuel rest st
    else if c = '.' && (rest = [] || rest.head? = some '/') then
      -- . element
      cleanLoop rooted fuel rest st
    else if c = '.' && rest.head? = some '.' &&
        (rest.tail = [] || rest.tail.head? = some '/') then
      -- .. element: remove to last /
      if st.out.length > st.dotdot then
        -- can backtrack
        let removed := st.out.getLast?.getD '/'
        let out := cleanBacktrack st.dotdot st.out.length st.out.dropLast removed
        cleanLoop rooted fuel rest.tail { st with out := out }
      else if !rooted then
        -- cannot backtrack, but not rooted, so append .. element.
        let out := (if st.out.length > 0 then st.out ++ ['/'] else st.out) ++ ['.', '.']
        cleanLoop rooted fuel rest.tail { out := out, dotdot := out.length }
      else
        cleanLoop rooted fuel rest.tail st
    else
      -- real path element: add slash if needed, then copy the element
      let out :=
        if (rooted && st.out.length != 1) || (!rooted && st.out.length != 0)
        then st.out ++ ['/'] else st.out
      let elemChars := (c :: rest).takeWhile (fun x => x != '/')
      cleanLoop rooted fuel ((c :: rest).dropWhile (fun x => x != '/'))
        { st with out := out ++ elemChars }

/-- Go `path.Clean` on the characters of the path. -/
def cleanChars (p : List Char) : List Char :=
  if p = [] then ['.']
  else
    let rooted := p.head? = some '/'
    let st := if rooted then
        cleanLoop true (p.length - 1) p.tail { out := ['/'], dotdot := 1 }
      else
        cleanLoop false p.length p { out := [], dotdot := 0 }
    -- Turn empty string into "."
    if st.out = [] then ['.'] else st.out

/-- Go `path.Clean`. -/
def pathClean (p : String) : String :=
  String.mk (cleanChars p.data)

/-- Go `path.Join`: the non-empty elements that follow the first non-empty
one are joined with `/` and the result is cleaned; the empty string when
every element is empty. -/
def pathJoin (elem : List String) : String :=
  let buf := elem.foldl
    (fun (buf : List Char) e =>
      if buf.length > 0 || e != "" then
        (if buf.length > 0 then buf ++ ['/'] else buf) ++ e.data
      else buf) []
  if (elem.map fun e => e.data.length).sum = 0 then "" else String.mk (cleanChars buf)

/-! ## Data model -/

deriving instance DecidableEq for Except

/-- The part of Go `os.FileInfo` that the program reads: `Name()` and
`ModTime()`, the latter as an instant on a linear time axis. -/
structure FileInfo where
  Name : String
  ModTime : Int
deriving DecidableEq, Repr

/-- The Go struct `Image`: one `image` element of the metadata document. -/
structure Image where
  Url : String
  UrlBase : String
  StartDate : String
  EndDate : String
  Copyright : String
deriving DecidableEq, Repr

/-- The Go struct `Result`: the parsed metadata document. -/
structure Result where
  Images : List Image
deriving DecidableEq, Repr

def bingService : String := "www.bing.com:443"
def nrImages : Nat := 1
def nrKeeps : Nat := 10
def nrRetries : Int := 5
/-- The constant `retryDelay`, `10 * time.Second`, in nanoseconds. -/
def retryDelay : Nat := 10 * 1000000000

def resolutions : List String := ["1024x768", "1280x720", "1366x768", "1920x1080", "1920x1200"]
def picOptions : List String :=
  ["none", "wallpaper", "centered", "scaled", "stretched", "zoom", "spanned"]
def markets : List String :=
  ["en-US", "zh-CN", "ja-JP", "en-AU", "en-UK", "de-DE", "en-NZ", "en-CA"]

/-! ## The outside world -/

/-- What `http.Get` returns.  `failed err` is `err != nil`: the request
failed at the transport level and there is no response.  `answered` is a
response, whatever its status: `body` is what reading the body delivers and
`bodyErr` the error the reading ends with, if any. -/
inductive Response
  | failed (err : String)
  | answered (status : Nat) (body : String) (bodyErr : Option String)
deriving DecidableEq, Repr

/-- What `os.Stat` reports about a path: the file is there, it is not
(`os.IsNotExist(err)`), or the call fails with some other error. -/
inductive StatResult
  | found
  | notExist
  | failed (err : String)
deriving DecidableEq, Repr

/-- The library calls with an effect outside the process, as the program
makes them.  `log` is a line given to the standard logger (without the
logger's time stamp), `print` is text written to standard output, `copy` is
`io.Copy` into the file at `path`, having transferred `data`. -/
inductive Event
  | dial (service : String)
  | sleep (d : Nat)
  | log (line : String)
  | print (text : String)
  | httpGet (url : String)
  | stat (path : String)
  | create (path : String)
  | copy (path : String) (data : String)
  | remove (path : String)
  | readDir (dir : String)
  | mkdirAll (dir : String)
  | command (name : String) (args : List String)
deriving DecidableEq, Repr

/-- The answers of the outside world, one oracle per library call.  An
`Option String` answer is the Go `error`: `none` is `nil`.
`dial service n` answers the `n`-th (from 0) `net.DialTimeout` to `service`.
`sortSlice less xs` is `sort.Slice(xs, less)`; `durationString` is
`time.Duration.String`; `dateLabel s` is `time.Parse("20060102", s)` followed
by `Format("Jan 2")`; `run name args` is `exec.Command(name, args...).Run()`. -/
structure World where
  dial : String → Nat → Option String
  httpGet : String → Response
  xmlUnmarshal : String → Except String Result
  stat : String → StatResult
  create : String → Option String
  remove : String → Option String
  readDir : String → Except String (List FileInfo)
  sortSlice : (FileInfo → FileInfo → Bool) → List FileInfo → List FileInfo
  mkdirAll : String → Option String
  run : String → List String → Option String
  durationString : Nat → String
  dateLabel : String → String

/-- How a Go call ends: it returns a value, or the goroutine panics. -/
inductive Ending (α : Type)
  | returned (value : α)
  | crashed (msg : String)
deriving DecidableEq, Repr

/-- The result of running a function of the program: what it yields and the
library calls it made, in order. -/
structure Run (α : Type) where
  result : α
  events : List Event
deriving DecidableEq, Repr

/-! ## The program -/

/-- The loop of `verifyReachable`, `for tries < maxRetry`, with `remaining`
iterations to go (`maxRetry - tries`). -/
def verifyReachableLoop (w : World) (service : String) (retryDelay : Nat) :
    (remaining : Nat) → (tries : Nat) → Run (Option String)
  | 0, _ => ⟨some ("service " ++ service ++ " unreachable"), []⟩
  | remaining + 1, tries =>
    match w.dial service tries with
    | some err =>
      let next := verifyReachableLoop w service retryDelay remaining (tries + 1)
      ⟨next.result,
        [Event.dial service,
         Event.log ("Server unreachable, error:  " ++ err),
         Event.log ("Retry in " ++ w.durationString retryDelay),
         Event.sleep retryDelay] ++ next.events⟩
    | none => ⟨none, [Event.dial service]⟩

/-- Go `verifyReachable(service, maxRetry, retryDelay)`. -/
def verifyReachable (w : World) (service : String) (maxRetry : Int) (retryDelay : Nat) :
    Run (Option String) :=
  verifyReachableLoop w service retryDelay maxRetry.toNat 0

/-- Go `downloadMeta(metaUrl)`: the pair `(*Result, error)` is `Except`, a nil
record with an error being `Except.error`. -/
def downloadMeta (w : World) (metaUrl : String) : Run (Except String Result) :=
  match w.httpGet metaUrl with
  | .failed err => ⟨.error ("fetch: " ++ err), [Event.httpGet metaUrl]⟩
  | .answered _ body bodyErr =>
    match bodyErr with
    | some err =>
      ⟨.error ("fetch image meta: reading " ++ metaUrl ++ ": " ++ err ++ "\n"),
        [Event.httpGet metaUrl]⟩
    | none =>
      -- Unmarshal the image meta information.
      match w.xmlUnmarshal body with
      | .error err => ⟨.error ("parse image meta: " ++ err), [Event.httpGet metaUrl]⟩
      | .ok v => ⟨.ok v, [Event.httpGet metaUrl]⟩

/-- The part of `downloadImage` after a response was obtained for `imgUrl`:
the file is written only when `os.Stat` says that it does not exist. -/
def storeImage (w : World) (imgUrl imageDir : String) (body : String)
    (bodyErr : Option String) : Run (Except String String) :=
  let relFileName := pathBase imgUrl
  let absFileName := pathJoin [imageDir, relFileName]
  match w.stat absFileName with
  | .notExist =>
    match w.create absFileName with
    | some err =>
      ⟨.error ("create image file: " ++ err), [Event.stat absFileName, Event.create absFileName]⟩
    | none =>
      match bodyErr with
      | some err =>
        ⟨.error ("copy image: " ++ err),
          [Event.stat absFileName, Event.create absFileName, Event.copy absFileName body]⟩
      | none =>
        ⟨.ok absFileName,
          [Event.stat absFileName, Event.create absFileName, Event.copy absFileName body]⟩
  | _ => ⟨.ok absFileName, [Event.stat absFileName]⟩

/-- Go `downloadImage(url1, url2, imageDir)`. -/
def downloadImage (w : World) (url1 url2 imageDir : String) : Run (Except String String) :=
  -- First attempt to download the requested resolution.
  match w.httpGet url1 with
  | .failed _ =>
    -- fall back to the default image
    match w.httpGet url2 with
    | .failed err => ⟨.error ("fetch image data: " ++ err), [Event.httpGet url1, Event.httpGet url2]⟩
    | .answered _ body bodyErr =>
      let r := storeImage w url2 imageDir body bodyErr
      ⟨r.result, [Event.httpGet url1, Event.httpGet url2] ++ r.events⟩
  | .answered _ body bodyErr =>
    let r := storeImage w url1 imageDir body bodyErr
    ⟨r.result, Event.httpGet url1 :: r.events⟩

/-- Go `setDesktop(fileName, scaleOptions)`. -/
def setDesktop (w : World) (fileName scaleOptions : String) : Run (Option String) :=
  let cmd := "gsettings"
  let args1 := ["set", "org.gnome.desktop.background", "picture-uri", "file://" ++ fileName]
  match w.run cmd args1 with
  | some err => ⟨some ("set background image: " ++ err), [Event.command cmd args1]⟩
  | none =>
    let args2 := ["set", "org.gnome.desktop.background", "picture-options", scaleOptions]
    match w.run cmd args2 with
    | some err =>
      ⟨some ("set background options: " ++ err), [Event.command cmd args1, Event.command cmd args2]⟩
    | none => ⟨none, [Event.command cmd args1, Event.command cmd args2]⟩

/-- Go `filter(infos, s)`: the loop appends to `filtered` every info that
satisfies `s`. -/
def filter (infos : List FileInfo) (s : FileInfo → Bool) : List FileInfo :=
  infos.foldl (fun filtered info => if s info then filtered ++ [info] else filtered) []

/-- The predicate that `cleanup` gives to `filter`:
`strings.HasSuffix(strings.ToLower(f.Name()), ".jpg")`. -/
def isJpg (f : FileInfo) : Bool :=
  hasSuffix (toLower f.Name) ".jpg"

/-- The comparison that `cleanup` gives to `sort.Slice`:
`fileInfos[i].ModTime().Before(fileInfos[j].ModTime())`. -/
def modTimeBefore (a b : FileInfo) : Bool :=
  decide (a.ModTime < b.ModTime)

/-- The deletion loop of `cleanup` over `fileInfos[:len(fileInfos) - keeps]`:
a failed removal prints a warning and the loop goes on. -/
def removeLoop (w : World) (dir : String) : List FileInfo → List Event
  | [] => []
  | delInfo :: rest =>
    let target := pathJoin [dir, delInfo.Name]
    (match w.remove target with
      | some err => [Event.remove target, Event.print ("cleanup images: " ++ err ++ "\n")]
      | none =>
        [Event.remove target,
         Event.print ("cleanup images: deleted " ++ delInfo.Name ++ "\n")])
      ++ removeLoop w dir rest

/-- Go `cleanup(dir, keeps)`, for `keeps >= 0`.  The guard compares the number
of image files with the constant `nrKeeps`; the slice expression
`fileInfos[:len(fileInfos) - keeps]` panics when its bound is negative. -/
def cleanup (w : World) (dir : String) (keeps : Nat) : Run (Ending (Option String)) :=
  -- Fetch the image directory content.
  match w.readDir dir with
  | .error err => ⟨.returned (some ("cleanup images: " ++ err)), [Event.readDir dir]⟩
  | .ok fileInfos =>
    -- Filter the image files from the directory.
    let fileInfos := filter fileInfos isJpg
    -- Sort the file info array, oldest images first.
    let fileInfos := w.sortSlice modTimeBefore fileInfos
    -- Delete the oldest files.
    if fileInfos.length > nrKeeps then
      if fileInfos.length < keeps then
        ⟨.crashed "slice bounds out of range", [Event.readDir dir]⟩
      else
        ⟨.returned none,
          Event.readDir dir :: removeLoop w dir (fileInfos.take (fileInfos.length - keeps))⟩
    else ⟨.returned none, [Event.readDir dir]⟩

/-- The command line after `flag.Parse()`: the values of the flags and the
remaining arguments `flag.Args()`. -/
structure Flags where
  index : Nat
  res : String
  imgOpt : String
  info : Bool
  market : String
  imgDir : String
  clean : Bool
  args : List String
deriving DecidableEq, Repr

/-- The statement `log.Fatal(err)`: the line is logged and the process exits
with status 1. -/
def logFatal (line : String) (before : List Event) : Run (Ending Nat) :=
  ⟨.returned 1, before ++ [Event.log line]⟩

/-- The steps of `main` after the metadata was fetched, from the first access
to `meta.Images[0]` to the end.  `before` holds the calls made so far. -/
def mainAfterMeta (w : World) (res picOpt imgDir : String) (info clean : Bool)
    (before : List Event) (result : Result) : Run (Ending Nat) :=
  match result.Images with
  | [] => ⟨.crashed "index out of range [0] with length 0", before⟩
  | image0 :: _ =>
    -- Print the meta information.
    let startLabel := w.dateLabel image0.StartDate
    let endLabel := w.dateLabel image0.EndDate
    let ev := before ++
      [Event.print ("Title: " ++ image0.Copyright ++ "\n"),
       Event.print ("From: " ++ startLabel ++ " until: " ++ endLabel ++ "\n")]
    if info then
      -- We only wanted image info, we are done.
      ⟨.returned 0, ev⟩
    else
      -- Create the image directory if it doesn't exist.
      let ev := ev ++ [Event.mkdirAll imgDir]
      match w.mkdirAll imgDir with
      | some err => logFatal ("create image directory: " ++ err) ev
      | none =>
        -- Download the image data.
        let url1 := "http://www.bing.com" ++ image0.UrlBase ++ "_" ++ res ++ ".jpg"
        let url2 := "http://www.bing.com" ++ image0.Url
        let dl := downloadImage w url1 url2 imgDir
        let ev := ev ++ dl.events
        match dl.result with
        | .error err => logFatal err ev
        | .ok absFileName =>
          let sd := setDesktop w absFileName picOpt
          let ev := ev ++ sd.events
          match sd.result with
          | some err => logFatal err ev
          | none =>
            -- Cleanup old images.
            if clean then
              let cl := cleanup w imgDir nrKeeps
              let ev := ev ++ cl.events
              match cl.result with
              | .crashed msg => ⟨.crashed msg, ev⟩
              | .returned (some err) => logFatal err ev
              | .returned none => ⟨.returned 0, ev⟩
            else ⟨.returned 0, ev⟩

/-- Go `main`, from the parsed command line on.  The result is the exit
status of the process, or the panic that ends it. -/
def main (w : World) (flags : Flags) : Run (Ending Nat) :=
  if flags.args.length > 0 then
    logFatal "Unexpected command arguments. Use -help for more information." []
  else
    let (res, ev) :=
      if flags.res ∈ resolutions then (flags.res, [])
      else ("1920x1080",
        [Event.print ("Invalid resolution " ++ flags.res ++ ", fall back to default.\n")])
    let (picOpt, ev) :=
      if flags.imgOpt ∈ picOptions then (flags.imgOpt, ev)
      else ("zoom",
        ev ++ [Event.print ("Invalid pic option " ++ flags.imgOpt ++ ", fall back to default.\n")])
    let (market, ev) :=
      if flags.market ∈ markets then (flags.market, ev)
      else ("en-UK",
        ev ++ [Event.print ("Invalid market " ++ flags.market ++ ", fall back to default.\n")])
    -- Verify network availability & Bing availability.
    let vr := verifyReachable w bingService nrRetries retryDelay
    let ev := ev ++ vr.events
    match vr.result with
    | some err => logFatal err ev
    | none =>
      -- Get the image meta information from Bing.
      let metaUrl := "http://www.bing.com/HPImageArchive.aspx?format=xml&idx=" ++
        toString flags.index ++ "&n=" ++ toString nrImages ++ "&mkt=" ++ market
      let dm := downloadMeta w metaUrl
      let ev := ev ++ dm.events
      match dm.result with
      | .error err => logFatal err ev
      | .ok result => mainAfterMeta w res picOpt flags.imgDir flags.info flags.clean ev result

/-! ## Sample worlds -/

/-- Insertion of `x` into a list ordered by `less`, after the elements that
are not greater. -/
def insertByLess (less : FileInfo → FileInfo → Bool) (x : FileInfo) : List FileInfo → List FileInfo
  | [] => [x]
  | y :: ys => if less x y then x :: y :: ys else y :: insertByLess less x ys

/-- An insertion sort: one admissible behaviour of `sort.Slice`, used by the
sample worlds. -/
def insertionSortByLess (less : FileInfo → FileInfo → Bool) (xs : List FileInfo) : List FileInfo :=
  xs.foldr (insertByLess less) []

/-- A world in which the service answers at once, every HTTP request fails
at the transport level, no file exists and every file operation succeeds.
The sample worlds below change the oracles they are about. -/
def calmWorld : World where
  dial := fun _ _ => none
  httpGet := fun _ => Response.failed "dial tcp: no route to host"
  xmlUnmarshal := fun _ => Except.error "EOF"
  stat := fun _ => StatResult.notExist
  create := fun _ => none
  remove := fun _ => none
  readDir := fun _ => Except.ok []
  sortSlice := insertionSortByLess
  mkdirAll := fun _ => none
  run := fun _ _ => none
  durationString := fun d => toString (d / 1000000000) ++ "s"
  dateLabel := fun s => s

/-- The service refuses the first two connections and accepts the third. -/
def probeWorld : World :=
  { calmWorld with dial := fun _ n => if n < 2 then some "i/o timeout" else none }

def sampleMetaUrl : String :=
  "http://www.bing.com/HPImageArchive.aspx?format=xml&idx=0&n=1&mkt=en-UK"

def sampleUrl1 : String :=
  "http://www.bing.com/az/hprichbg/rb/Sample_EN-US1234567890_1920x1080.jpg"

def sampleUrl2 : String :=
  "http://www.bing.com/az/hprichbg/rb/Sample_EN-US1234567890_1366x768.jpg"

def sampleDir : String := "/home/user/Pictures/BingWallpaper"

def sampleImage : Image where
  Url := "/az/hprichbg/rb/Sample_EN-US1234567890_1366x768.jpg"
  UrlBase := "/az/hprichbg/rb/Sample_EN-US1234567890"
  StartDate := "20170101"
  EndDate := "20170102"
  Copyright := "Sample (c) Somebody"

/-- A metadata document with one `image` element. -/
def sampleDocument : String :=
  "<images><image><startdate>20170101</startdate><enddate>20170102</enddate>" ++
  "<url>/az/hprichbg/rb/Sample_EN-US1234567890_1366x768.jpg</url>" ++
  "<urlBase>/az/hprichbg/rb/Sample_EN-US1234567890</urlBase>" ++
  "<copyright>Sample (c) Somebody</copyright></image></images>"

/-- A well-formed metadata document without any `image` element. -/
def emptyDocument : String := "<images></images>"

/-- The answers of `xml.Unmarshal(b, &v)` for `v` of type `Result` on the
bodies of the sample worlds: `sampleDocument` gives its one image;
`emptyDocument` is accepted too (`Result` has no `XMLName` field, so any root
element is accepted) and leaves `Images` empty; the unclosed `<images>` is a
syntax error.  No other body occurs in the sample worlds. -/
def sampleUnmarshal (body : String) : Except String Result :=
  if body = sampleDocument then Except.ok { Images := [sampleImage] }
  else if body = emptyDocument then Except.ok { Images := [] }
  else Except.error "XML syntax error on line 1: unexpected EOF"

/-- The metadata request is answered with status 404 and a body that is a
metadata document. -/
def notFoundWorld : World :=
  { calmWorld with
    httpGet := fun _ => Response.answered 404 sampleDocument none
    xmlUnmarshal := sampleUnmarshal }

/-- The metadata request is answered with status 200 and an unclosed
document. -/
def brokenMetaWorld : World :=
  { calmWorld with
    httpGet := fun _ => Response.answered 200 "<images>" none
    xmlUnmarshal := sampleUnmarshal }

/-- The image of the preferred URL is served and is already in the image
directory. -/
def cachedWorld : World :=
  { calmWorld with
    httpGet := fun u =>
      if u = sampleUrl1 then Response.answered 200 "JFIF image bytes" none
      else Response.failed "dial tcp: no route to host"
    stat := fun p =>
      if p = "/home/user/Pictures/BingWallpaper/Sample_EN-US1234567890_1920x1080.jpg"
      then StatResult.found else StatResult.notExist }

/-- The image is already in the image directory and the network is down. -/
def cachedOfflineWorld : World :=
  { calmWorld with
    stat := fun p =>
      if p = "/home/user/Pictures/BingWallpaper/Sample_EN-US1234567890_1920x1080.jpg"
      then StatResult.found else StatResult.notExist }

/-- The image of the preferred URL is served and the image directory is
empty. -/
def freshWorld : World :=
  { calmWorld with
    httpGet := fun u =>
      if u = sampleUrl1 then Response.answered 200 "JFIF image bytes" none
      else Response.failed "dial tcp: no route to host" }

/-- The preferred URL fails at the transport level, the fallback URL is
served, and the fallback image is already in the image directory. -/
def fallbackCachedWorld : World :=
  { calmWorld with
    httpGet := fun u =>
      if u = sampleUrl2 then Response.answered 200 "JFIF image bytes" none
      else Response.failed "dial tcp: no route to host"
    stat := fun p =>
      if p = "/home/user/Pictures/BingWallpaper/Sample_EN-US1234567890_1366x768.jpg"
      then StatResult.found else StatResult.notExist }

/-- The preferred URL fails at the transport level, the fallback URL is
served, and the image directory is empty. -/
def fallbackFreshWorld : World :=
  { calmWorld with
    httpGet := fun u =>
      if u = sampleUrl2 then Response.answered 200 "JFIF fallback image bytes" none
      else Response.failed "dial tcp: no route to host" }

/-- The URL whose response `downloadImage` uses (the variable `imgUrl` when
the function gets to naming the file): `url1` when its GET returned a
response, `url2` when the GET of `url1` failed and that of `url2` returned a
response, none when both failed. -/
def usedUrl (w : World) (url1 url2 : String) : Option String :=
  match w.httpGet url1 with
  | .answered _ _ _ => some url1
  | .failed _ =>
    match w.httpGet url2 with
    | .answered _ _ _ => some url2
    | .failed _ => none

/-- The entry of an image file named after `n`, last modified at time `n`. -/
def jpgFile (n : Nat) : FileInfo :=
  { Name := "bing" ++ toString n ++ ".jpg", ModTime := n }

/-- A directory listing of `n` image files, the oldest first. -/
def jpgFiles (n : Nat) : List FileInfo :=
  (List.range n).map jpgFile

/-- The image directory holds five image files and every removal succeeds. -/
def fiveImagesWorld : World :=
  { calmWorld with readDir := fun _ => Except.ok (jpgFiles 5) }

/-- The image directory holds eleven image files and every removal
succeeds. -/
def elevenImagesWorld : World :=
  { calmWorld with readDir := fun _ => Except.ok (jpgFiles 11) }

/-- The image directory holds four image files and the oldest cannot be
removed. -/
def lockedImageWorld : World :=
  { calmWorld with
    readDir := fun _ => Except.ok (jpgFiles 4)
    remove := fun p =>
      if p = "/home/user/Pictures/BingWallpaper/bing0.jpg"
      then some "remove /home/user/Pictures/BingWallpaper/bing0.jpg: permission denied"
      else none }

/-- The image directory holds twelve image files and, older than all of them,
a text file and a picture of another format; the second oldest image cannot
be removed. -/
def mixedDirWorld : World :=
  { calmWorld with
    readDir := fun _ => Except.ok
      ({ Name := "notes.txt", ModTime := -2 } :: { Name := "a.png", ModTime := -1 } ::
        { Name := "b.JPG", ModTime := 0 } :: (jpgFiles 12).tail)
    remove := fun p =>
      if p = "/home/user/Pictures/BingWallpaper/bing1.jpg"
      then some "remove /home/user/Pictures/BingWallpaper/bing1.jpg: permission denied"
      else none }

/-- The service is reachable and the metadata request is answered with
status 200 and a document without any image. -/
def emptyMetaWorld : World :=
  { calmWorld with
    httpGet := fun _ => Response.answered 200 emptyDocument none
    xmlUnmarshal := sampleUnmarshal }

/-- The command line of a run without arguments: every flag has its default
value. -/
def defaultFlags : Flags where
  index := 0
  res := "1920x1080"
  imgOpt := "zoom"
  info := false
  market := "en-UK"
  imgDir := sampleDir
  clean := true
  args := []

/-! ## Reading a run -/

/-- Number of connection attempts (`net.DialTimeout` calls) in a run. -/
def dialCount (ev : List Event) : Nat :=
  ev.countP (fun e => match e with | Event.dial _ => true | _ => false)

/-- The line that `verifyReachable` logs for a retry. -/
def retryLine (w : World) (retryDelay : Nat) : Event :=
  Event.log ("Retry in " ++ w.durationString retryDelay)

/-- Number of retries logged in a run. -/
def retryCount (w : World) (retryDelay : Nat) (ev : List Event) : Nat :=
  ev.count (retryLine w retryDelay)

/-- The URLs of the HTTP GET requests of a run, in order. -/
def getsOf (ev : List Event) : List String :=
  ev.filterMap (fun e => match e with | Event.httpGet u => some u | _ => none)

/-- The paths given to `os.Remove` in a run, in order. -/
def removalsOf (ev : List Event) : List String :=
  ev.filterMap (fun e => match e with | Event.remove p => some p | _ => none)

/-- The run changes a file: it creates (or truncates) one, writes to one or
removes one. -/
def changesFile (e : Event) : Bool :=
  match e with
  | Event.create _ => true
  | Event.copy _ _ => true
  | Event.remove _ => true
  | _ => false

/-- The lines written to standard output in a run, in order. -/
def printsOf (ev : List Event) : List String :=
  ev.filterMap (fun e => match e with | Event.print t => some t | _ => none)

/-- The line that the deletion loop of `cleanup` prints for a file: the
warning when its removal fails, the "deleted" line when it succeeds. -/
def removalLine (w : World) (dir : String) (f : FileInfo) : String :=
  match w.remove (pathJoin [dir, f.Name]) with
  | some err => "cleanup images: " ++ err ++ "\n"
  | none => "cleanup images: deleted " ++ f.Name ++ "\n"

/-! ## Path functions -/

theorem cleanBacktrack_fuel (dotdot : Nat) :
    ∀ (fuel1 fuel2 : Nat) (buf : List Char) (removed : Char),
      buf.length ≤ fuel1 → buf.length ≤ fuel2 →
      cleanBacktrack dotdot fuel1 buf removed = cleanBacktrack dotdot fuel2 buf removed := by
  intro fuel1
  induction fuel1 with
  | zero =>
    intro fuel2 buf removed h1 _
    have hb : buf = [] := List.length_eq_zero.mp (Nat.le_zero.mp h1)
    subst hb
    cases fuel2 <;> simp [cleanBacktrack]
  | succ n ih =>
    intro fuel2 buf removed h1 h2
    cases fuel2 with
    | zero =>
      have hb : buf = [] := List.length_eq_zero.mp (Nat.le_zero.mp h2)
      subst hb
      simp [cleanBacktrack]
    | succ m =>
      simp only [cleanBacktrack]
      split
      · apply ih
        · simp only [List.length_dropLast]; omega
        · simp only [List.length_dropLast]; omega
      · rfl

theorem length_dropWhile_le (p : Char → Bool) (l : List Char) :
    (l.dropWhile p).length ≤ l.length := by
  induction l with
  | nil => simp
  | cons x xs ih =>
    simp only [List.dropWhile_cons]
    split
    · exact Nat.le_succ_of_le ih
    · exact Nat.le_refl _

theorem cleanLoop_fuel_irrelevant (rooted : Bool) :
    ∀ (fuel1 fuel2 : Nat) (rest : List Char) (st : CleanState),
      rest.length ≤ fuel1 → rest.length ≤ fuel2 →
      cleanLoop rooted fuel1 rest st = cleanLoop rooted fuel2 rest st := by
  intro fuel1
  induction fuel1 with
  | zero =>
    intro fuel2 rest st h1 _
    have hb : rest = [] := List.length_eq_zero.mp (Nat.le_zero.mp h1)
    subst hb
    cases fuel2 <;> simp [cleanLoop]
  | succ n ih =>
    intro fuel2 rest st h1 h2
    cases rest with
    | nil => cases fuel2 <;> simp [cleanLoop]
    | cons c r =>
      cases fuel2 with
      | zero => simp at h2
      | succ m =>
        simp only [List.length_cons, Nat.add_le_add_iff_right] at h1 h2
        have ht1 : r.tail.length ≤ n := by simp only [List.length_tail]; omega
        have ht2 : r.tail.length ≤ m := by simp only [List.length_tail]; omega
        simp only [cleanLoop]
        split
        · exact ih m r st h1 h2
        · split
          · exact ih m r st h1 h2
          · split
            · split
              · exact ih m _ _ ht1 ht2
              · split
                · exact ih m _ _ ht1 ht2
                · exact ih m _ _ ht1 ht2
            · rename_i hc _ _
              have hd : ((c :: r).dropWhile (fun x => x != '/')).length ≤ r.length := by
                have hc2 : (c != '/') = true := by simpa using hc
                simp only [List.dropWhile_cons, hc2, if_true]
                exact length_dropWhile_le _ r
              exact ih m _ _ (by omega) (by omega)

/-- Enough fuel: the loop of `path.Clean` run with any fuel of at least the
length of the unread part gives what it gives with exactly that length. -/
theorem cleanLoop_fuel (rooted : Bool) (fuel : Nat) (rest : List Char) (st : CleanState)
    (h : rest.length ≤ fuel) :
    cleanLoop rooted fuel rest st = cleanLoop rooted rest.length rest st :=
  cleanLoop_fuel_irrelevant rooted fuel rest.length rest st h (Nat.le_refl _)

/-- The embedding of `path.Clean` on the table of the Go test
`TestClean`. -/
theorem pathClean_go_table :
    [ "", "abc", "abc/def", "a/b/c", ".", "..", "../..", "../../abc", "/abc", "/",
      "abc/", "abc/def/", "a/b/c/", "./", "../", "../../", "/abc/",
      "abc//def//ghi", "//abc", "///abc", "//abc//", "abc//",
      "abc/./def", "/./abc/def", "abc/.",
      "abc/def/ghi/../jkl", "abc/def/../ghi/../jkl", "abc/def/..", "abc/def/../..",
      "/abc/def/../..", "abc/def/../../..", "/abc/def/../../..",
      "abc/def/../../../ghi/jkl/../../../mno",
      "abc/./../def", "abc//./../def", "abc/../../././../def" ].map pathClean
    = [ ".", "abc", "abc/def", "a/b/c", ".", "..", "../..", "../../abc", "/abc", "/",
        "abc", "abc/def", "a/b/c", ".", "..", "../..", "/abc",
        "abc/def/ghi", "/abc", "/abc", "/abc", "abc",
        "abc/def", "/abc/def", "abc",
        "abc/def/jkl", "abc/jkl", "abc", ".",
        "/", "..", "/",
        "../../mno",
        "def", "def", "../../def" ] := by
  decide

/-- The embedding of `path.Base` on the table of the Go test `TestBase`. -/
theorem pathBase_go_table :
    [ "", ".", "/.", "/", "////", "x/", "abc", "abc/def", "a/b/.x", "a/b/c.",
      "a/b/c.x" ].map pathBase
    = [ ".", ".", ".", "/", "/", "x", "abc", "def", ".x", "c.", "c.x" ] := by
  decide

/-- The embedding of `path.Join` on the table of the Go test `TestJoin`. -/
theorem pathJoin_go_table :
    [ [], [""], ["a"], ["a", "b"], ["a", ""], ["", "b"], ["/", "a"], ["/", ""],
      ["a/", "b"], ["a/", ""], ["", ""] ].map pathJoin
    = [ "", "", "a", "a/b", "a", "b", "/a", "/", "a/b", "a", "" ] := by
  decide

/-! ## Reachability probe -/

theorem unreachable_ne_retry (err d : String) :
    Event.log ("Server unreachable, error:  " ++ err) ≠ Event.log ("Retry in " ++ d) := by
  intro h
  injection h with h
  have h2 := congrArg String.data h
  simp only [String.data_append] at h2
  have h3 := congrArg List.head? h2
  simp at h3

theorem verifyReachableLoop_all_fail (w : World) (service : String) (delay : Nat) :
    ∀ (remaining tries : Nat),
      (∀ j, j < remaining → w.dial service (tries + j) ≠ none) →
      (verifyReachableLoop w service delay remaining tries).result
          = some ("service " ++ service ++ " unreachable") ∧
        dialCount (verifyReachableLoop w service delay remaining tries).events = remaining ∧
        retryCount w delay (verifyReachableLoop w service delay remaining tries).events
          = remaining := by
  intro remaining
  induction remaining with
  | zero => intro tries _; simp [verifyReachableLoop, dialCount, retryCount]
  | succ n ih =>
    intro tries h
    have h0 := h 0 (Nat.succ_pos n)
    simp only [Nat.add_zero] at h0
    have hrest : ∀ j, j < n → w.dial service (tries + 1 + j) ≠ none := by
      intro j hj
      have := h (j + 1) (Nat.succ_lt_succ hj)
      rwa [show tries + (j + 1) = tries + 1 + j by omega] at this
    obtain ⟨r1, r2, r3⟩ := ih (tries + 1) hrest
    cases hd : w.dial service tries with
    | none => exact absurd hd h0
    | some err =>
      simp only [verifyReachableLoop, hd]
      refine ⟨r1, ?_, ?_⟩
      · simp only [dialCount] at r2 ⊢
        simp [List.countP_cons, r2]
      · simp only [retryCount, retryLine] at r3 ⊢
        have hne := unreachable_ne_retry err (w.durationString delay)
        simp [List.count_cons, r3, hne]

theorem verifyReachableLoop_success (w : World) (service : String) (delay : Nat) :
    ∀ (i remaining tries : Nat), i < remaining →
      (∀ j, j < i → w.dial service (tries + j) ≠ none) →
      w.dial service (tries + i) = none →
      (verifyReachableLoop w service delay remaining tries).result = none ∧
        dialCount (verifyReachableLoop w service delay remaining tries).events = i + 1 ∧
        retryCount w delay (verifyReachableLoop w service delay remaining tries).events = i ∧
        (verifyReachableLoop w service delay remaining tries).events.getLast?
          = some (Event.dial service) := by
  intro i
  induction i with
  | zero =>
    intro remaining tries hlt _ hs
    obtain ⟨n, rfl⟩ : ∃ n, remaining = n + 1 := ⟨remaining - 1, by omega⟩
    simp only [Nat.add_zero] at hs
    simp [verifyReachableLoop, hs, dialCount, retryCount, retryLine]
  | succ k ih =>
    intro remaining tries hlt hf hs
    obtain ⟨n, rfl⟩ : ∃ n, remaining = n + 1 := ⟨remaining - 1, by omega⟩
    have h0 := hf 0 (Nat.succ_pos k)
    simp only [Nat.add_zero] at h0
    have hrest : ∀ j, j < k → w.dial service (tries + 1 + j) ≠ none := by
      intro j hj
      have := hf (j + 1) (Nat.succ_lt_succ hj)
      rwa [show tries + (j + 1) = tries + 1 + j by omega] at this
    have hs2 : w.dial service (tries + 1 + k) = none := by
      rwa [show tries + (k + 1) = tries + 1 + k by omega] at hs
    obtain ⟨r1, r2, r3, r4⟩ := ih n (tries + 1) (by omega) hrest hs2
    cases hd : w.dial service tries with
    | none => exact absurd hd h0
    | some err =>
      simp only [verifyReachableLoop, hd]
      refine ⟨r1, ?_, ?_, ?_⟩
      · simp only [dialCount] at r2 ⊢
        simp [List.countP_cons, r2]
      · simp only [retryCount, retryLine] at r3 ⊢
        have hne := unreachable_ne_retry err (w.durationString delay)
        simp [List.count_cons, r3, hne]
      · rw [List.getLast?_append, r4]
        rfl

/-- C8: for every maxRetry N >= 0, `verifyReachable` makes exactly min(N, i)
connection attempts, i being the position of the first successful attempt.
If attempt i+1 (counted from 1) is the first to succeed and i+1 <= N, the
result is nil, exactly i+1 attempts were made, i retries were logged and the
successful attempt is the last call of the run.  If the first N attempts all
fail, exactly N attempts were made, exactly N retries were logged and the
result is the error "service ... unreachable".  With N = 5 and outcomes fail,
fail, success the function returns nil after exactly 3 attempts. -/
theorem verifyReachable_attempts (w : World) (service : String) (N : Nat) (delay : Nat) :
    (∀ i : Nat, i < N → (∀ j, j < i → w.dial service j ≠ none) →
        w.dial service i = none →
        (verifyReachable w service (N : Int) delay).result = none ∧
        dialCount (verifyReachable w service (N : Int) delay).events = i + 1 ∧
        retryCount w delay (verifyReachable w service (N : Int) delay).events = i ∧
        (verifyReachable w service (N : Int) delay).events.getLast?
          = some (Event.dial service)) ∧
    ((∀ j : Nat, j < N → w.dial service j ≠ none) →
        (verifyReachable w service (N : Int) delay).result
          = some ("service " ++ service ++ " unreachable") ∧
        dialCount (verifyReachable w service (N : Int) delay).events = N ∧
        retryCount w delay (verifyReachable w service (N : Int) delay).events = N) ∧
    ((verifyReachable probeWorld bingService 5 retryDelay).result = none ∧
      dialCount (verifyReachable probeWorld bingService 5 retryDelay).events = 3) := by
  refine ⟨?_, ?_, ?_⟩
  · intro i hi hf hs
    have := verifyReachableLoop_success w service delay i N 0 hi
      (fun j hj => by simpa using hf j hj) (by simpa using hs)
    simpa [verifyReachable] using this
  · intro hf
    have := verifyReachableLoop_all_fail w service delay N 0
      (fun j hj => by simpa using hf j hj)
    simpa [verifyReachable] using this
  · decide

theorem verifyReachable_attempts_witness :
    (verifyReachable probeWorld bingService ((5 : Nat) : Int) retryDelay).result = none ∧
      dialCount (verifyReachable probeWorld bingService ((5 : Nat) : Int) retryDelay).events
        = 2 + 1 ∧
      retryCount probeWorld retryDelay
        (verifyReachable probeWorld bingService ((5 : Nat) : Int) retryDelay).events = 2 ∧
      (verifyReachable probeWorld bingService ((5 : Nat) : Int) retryDelay).events.getLast?
        = some (Event.dial bingService) :=
  (verifyReachable_attempts probeWorld bingService 5 retryDelay).1 2 (by decide)
    (by decide) (by decide)

/-! ## Metadata fetcher -/

/-- C7 as stated fails: a response with status 404 whose body is a metadata
document is not a fetch error; `downloadMeta` returns the parsed record. -/
theorem downloadMeta_status_counterexample :
    notFoundWorld.httpGet sampleMetaUrl = Response.answered 404 sampleDocument none ∧
      ¬ (200 ≤ 404 ∧ 404 < 300) ∧
      (downloadMeta notFoundWorld sampleMetaUrl).result
        = Except.ok { Images := [sampleImage] } := by
  decide

/-- C7, amended: `downloadMeta` yields a "fetch" error when the GET fails at
the transport level or the body cannot be read, and a "parse image meta"
error when `xml.Unmarshal` rejects the body, in each case without a record.
The status of the response is not looked at: whatever the status, a body that
unmarshals is returned as the record, without error. -/
theorem downloadMeta_errors (w : World) (metaUrl : String) :
    (∀ err, w.httpGet metaUrl = Response.failed err →
        (downloadMeta w metaUrl).result = Except.error ("fetch: " ++ err)) ∧
    (∀ status body err, w.httpGet metaUrl = Response.answered status body (some err) →
        (downloadMeta w metaUrl).result
          = Except.error ("fetch image meta: reading " ++ metaUrl ++ ": " ++ err ++ "\n")) ∧
    (∀ status body err, w.httpGet metaUrl = Response.answered status body none →
        w.xmlUnmarshal body = Except.error err →
        (downloadMeta w metaUrl).result = Except.error ("parse image meta: " ++ err)) ∧
    (∀ status body v, w.httpGet metaUrl = Response.answered status body none →
        w.xmlUnmarshal body = Except.ok v →
        (downloadMeta w metaUrl).result = Except.ok v) := by
  refine ⟨?_, ?_, ?_, ?_⟩
  · intro err h; simp [downloadMeta, h]
  · intro status body err h; simp [downloadMeta, h]
  · intro status body err h hx; simp [downloadMeta, h, hx]
  · intro status body v h hx; simp [downloadMeta, h, hx]

theorem downloadMeta_errors_witness :
    (downloadMeta brokenMetaWorld sampleMetaUrl).result
      = Except.error ("parse image meta: " ++ "XML syntax error on line 1: unexpected EOF") :=
  (downloadMeta_errors brokenMetaWorld sampleMetaUrl).2.2.1 200 "<images>"
    "XML syntax error on line 1: unexpected EOF" (by decide) (by decide)

/-! ## Image downloader -/

theorem storeImage_found (w : World) (imgUrl imageDir body : String) (bodyErr : Option String)
    (h : w.stat (pathJoin [imageDir, pathBase imgUrl]) = StatResult.found) :
    storeImage w imgUrl imageDir body bodyErr
      = ⟨Except.ok (pathJoin [imageDir, pathBase imgUrl]),
          [Event.stat (pathJoin [imageDir, pathBase imgUrl])]⟩ := by
  simp [storeImage, h]

theorem storeImage_ok (w : World) (imgUrl imageDir body : String) (bodyErr : Option String)
    (p : String) (h : (storeImage w imgUrl imageDir body bodyErr).result = Except.ok p) :
    p = pathJoin [imageDir, pathBase imgUrl] := by
  unfold storeImage at h
  simp only at h
  split at h
  · split at h
    · simp at h
    · split at h
      · simp at h
      · simpa using h.symm
  · simpa using h.symm

/-- C4 as stated fails: with the target file already in the image directory
`downloadImage` still issues the GET of `url1`; and when that GET fails the
existing path is not returned (here both GETs fail and the result is an
error). -/
theorem downloadImage_existing_counterexample :
    cachedWorld.stat (pathJoin [sampleDir, pathBase sampleUrl1]) = StatResult.found ∧
      Event.httpGet sampleUrl1 ∈ (downloadImage cachedWorld sampleUrl1 sampleUrl2 sampleDir).events ∧
      cachedOfflineWorld.stat (pathJoin [sampleDir, pathBase sampleUrl1]) = StatResult.found ∧
      (downloadImage cachedOfflineWorld sampleUrl1 sampleUrl2 sampleDir).result
        = Except.error "fetch image data: dial tcp: no route to host" := by
  decide

/-- C4, amended: when the file `path.Join(imageDir, path.Base(url1))` already
exists and the GET of `url1` returns a response, `downloadImage` issues that
one GET and no other, looks the file up, creates and writes nothing, and
returns the existing path with no error. -/
theorem downloadImage_existing_file (w : World) (url1 url2 imageDir : String)
    (status : Nat) (body : String) (bodyErr : Option String)
    (hget : w.httpGet url1 = Response.answered status body bodyErr)
    (hstat : w.stat (pathJoin [imageDir, pathBase url1]) = StatResult.found) :
    downloadImage w url1 url2 imageDir
      = ⟨Except.ok (pathJoin [imageDir, pathBase url1]),
          [Event.httpGet url1, Event.stat (pathJoin [imageDir, pathBase url1])]⟩ := by
  simp [downloadImage, hget, storeImage_found w url1 imageDir body bodyErr hstat]

theorem downloadImage_existing_file_witness :
    downloadImage cachedWorld sampleUrl1 sampleUrl2 sampleDir
      = ⟨Except.ok (pathJoin [sampleDir, pathBase sampleUrl1]),
          [Event.httpGet sampleUrl1, Event.stat (pathJoin [sampleDir, pathBase sampleUrl1])]⟩ :=
  downloadImage_existing_file cachedWorld sampleUrl1 sampleUrl2 sampleDir 200
    "JFIF image bytes" none (by decide) (by decide)

/-- C5: the downloader never overwrites an existing file.  In every run in
which the target path (the image directory joined with the base name of the
URL actually used) already exists, `downloadImage` creates, writes and
removes no file, and the result is that path with a nil error. -/
theorem downloadImage_never_overwrites (w : World) (url1 url2 imageDir used : String)
    (hused : usedUrl w url1 url2 = some used)
    (hstat : w.stat (pathJoin [imageDir, pathBase used]) = StatResult.found) :
    (downloadImage w url1 url2 imageDir).result
        = Except.ok (pathJoin [imageDir, pathBase used]) ∧
      (downloadImage w url1 url2 imageDir).events.any changesFile = false := by
  unfold usedUrl at hused
  cases h1 : w.httpGet url1 with
  | answered status body bodyErr =>
    simp only [h1, Option.some.injEq] at hused
    subst hused
    simp [downloadImage, h1, storeImage_found w url1 imageDir body bodyErr hstat, changesFile]
  | failed e1 =>
    simp only [h1] at hused
    cases h2 : w.httpGet url2 with
    | answered status body bodyErr =>
      simp only [h2, Option.some.injEq] at hused
      subst hused
      simp [downloadImage, h1, h2, storeImage_found w url2 imageDir body bodyErr hstat,
        changesFile]
    | failed e2 => simp [h2] at hused

theorem downloadImage_never_overwrites_witness :
    (downloadImage fallbackCachedWorld sampleUrl1 sampleUrl2 sampleDir).result
        = Except.ok (pathJoin [sampleDir, pathBase sampleUrl2]) ∧
      (downloadImage fallbackCachedWorld sampleUrl1 sampleUrl2 sampleDir).events.any changesFile
        = false :=
  downloadImage_never_overwrites fallbackCachedWorld sampleUrl1 sampleUrl2 sampleDir sampleUrl2
    (by decide) (by decide)

theorem storeImage_gets (w : World) (imgUrl imageDir body : String) (bodyErr : Option String) :
    getsOf (storeImage w imgUrl imageDir body bodyErr).events = [] := by
  unfold storeImage
  simp only
  split
  · split
    · simp [getsOf]
    · split <;> simp [getsOf]
  · simp [getsOf]

theorem storeImage_kept (w : World) (imgUrl imageDir body : String) (bodyErr : Option String)
    (h : w.stat (pathJoin [imageDir, pathBase imgUrl]) ≠ StatResult.notExist) :
    storeImage w imgUrl imageDir body bodyErr
      = ⟨Except.ok (pathJoin [imageDir, pathBase imgUrl]),
          [Event.stat (pathJoin [imageDir, pathBase imgUrl])]⟩ := by
  cases hs : w.stat (pathJoin [imageDir, pathBase imgUrl]) with
  | notExist => exact absurd hs h
  | found => simp [storeImage, hs]
  | failed err => simp [storeImage, hs]

theorem storeImage_create_fails (w : World) (imgUrl imageDir body : String)
    (bodyErr : Option String) (err : String)
    (hs : w.stat (pathJoin [imageDir, pathBase imgUrl]) = StatResult.notExist)
    (hc : w.create (pathJoin [imageDir, pathBase imgUrl]) = some err) :
    storeImage w imgUrl imageDir body bodyErr
      = ⟨Except.error ("create image file: " ++ err),
          [Event.stat (pathJoin [imageDir, pathBase imgUrl]),
           Event.create (pathJoin [imageDir, pathBase imgUrl])]⟩ := by
  simp [storeImage, hs, hc]

theorem storeImage_stored (w : World) (imgUrl imageDir body : String)
    (hs : w.stat (pathJoin [imageDir, pathBase imgUrl]) = StatResult.notExist)
    (hc : w.create (pathJoin [imageDir, pathBase imgUrl]) = none) :
    storeImage w imgUrl imageDir body none
      = ⟨Except.ok (pathJoin [imageDir, pathBase imgUrl]),
          [Event.stat (pathJoin [imageDir, pathBase imgUrl]),
           Event.create (pathJoin [imageDir, pathBase imgUrl]),
           Event.copy (pathJoin [imageDir, pathBase imgUrl]) body]⟩ := by
  simp [storeImage, hs, hc]

theorem storeImage_copy_fails (w : World) (imgUrl imageDir body err : String)
    (hs : w.stat (pathJoin [imageDir, pathBase imgUrl]) = StatResult.notExist)
    (hc : w.create (pathJoin [imageDir, pathBase imgUrl]) = none) :
    storeImage w imgUrl imageDir body (some err)
      = ⟨Except.error ("copy image: " ++ err),
          [Event.stat (pathJoin [imageDir, pathBase imgUrl]),
           Event.create (pathJoin [imageDir, pathBase imgUrl]),
           Event.copy (pathJoin [imageDir, pathBase imgUrl]) body]⟩ := by
  simp [storeImage, hs, hc]

/-- C6: in `downloadImage` the fallback URL is requested exactly when the GET
of `url1` fails at the transport level: a response to `url1`, whatever its
status, is followed by no other GET.  The stored file is named after the URL
actually used.  When the first GET returned a response, the file looked up is
`path.Join(imageDir, path.Base(url1))`: if it is not there it is created at
that path and the body of the response to `url1` is copied into it, and on
success the result is that path.  When the first GET failed and the second
returned a response, the same holds with
`path.Join(imageDir, path.Base(url2))` and the body of the response to
`url2`.  In both cases a file that is already there is left alone, and a
failing creation or copy gives the "create image file" or "copy image" error.
When both GETs fail the result is a "fetch image data" error and no file is
created.  The base name of the sample URL is
"Sample_EN-US1234567890_1920x1080.jpg", and it is the name of the file that
`downloadImage` stores for it; when the sample URL fails, the file stored is
named after the fallback URL. -/
theorem downloadImage_fallback (w : World) (url1 url2 imageDir : String) :
    (∀ status body bodyErr, w.httpGet url1 = Response.answered status body bodyErr →
        getsOf (downloadImage w url1 url2 imageDir).events = [url1] ∧
        ∀ p, (downloadImage w url1 url2 imageDir).result = Except.ok p →
          p = pathJoin [imageDir, pathBase url1]) ∧
    (∀ err, w.httpGet url1 = Response.failed err →
        getsOf (downloadImage w url1 url2 imageDir).events = [url1, url2]) ∧
    (∀ err status body bodyErr, w.httpGet url1 = Response.failed err →
        w.httpGet url2 = Response.answered status body bodyErr →
        ∀ p, (downloadImage w url1 url2 imageDir).result = Except.ok p →
          p = pathJoin [imageDir, pathBase url2]) ∧
    (∀ err1 err2, w.httpGet url1 = Response.failed err1 →
        w.httpGet url2 = Response.failed err2 →
        downloadImage w url1 url2 imageDir
          = ⟨Except.error ("fetch image data: " ++ err2),
              [Event.httpGet url1, Event.httpGet url2]⟩) ∧
    (pathBase sampleUrl1 = "Sample_EN-US1234567890_1920x1080.jpg" ∧
      downloadImage freshWorld sampleUrl1 sampleUrl2 sampleDir
        = ⟨Except.ok "/home/user/Pictures/BingWallpaper/Sample_EN-US1234567890_1920x1080.jpg",
            [Event.httpGet sampleUrl1,
             Event.stat "/home/user/Pictures/BingWallpaper/Sample_EN-US1234567890_1920x1080.jpg",
             Event.create "/home/user/Pictures/BingWallpaper/Sample_EN-US1234567890_1920x1080.jpg",
             Event.copy "/home/user/Pictures/BingWallpaper/Sample_EN-US1234567890_1920x1080.jpg"
               "JFIF image bytes"]⟩) ∧
    -- the file stored when `url1` is answered
    (∀ status body bodyErr, w.httpGet url1 = Response.answered status body bodyErr →
        (w.stat (pathJoin [imageDir, pathBase url1]) ≠ StatResult.notExist →
          downloadImage w url1 url2 imageDir
            = ⟨Except.ok (pathJoin [imageDir, pathBase url1]),
                [Event.httpGet url1, Event.stat (pathJoin [imageDir, pathBase url1])]⟩) ∧
        (w.stat (pathJoin [imageDir, pathBase url1]) = StatResult.notExist →
          (∀ err, w.create (pathJoin [imageDir, pathBase url1]) = some err →
            downloadImage w url1 url2 imageDir
              = ⟨Except.error ("create image file: " ++ err),
                  [Event.httpGet url1, Event.stat (pathJoin [imageDir, pathBase url1]),
                   Event.create (pathJoin [imageDir, pathBase url1])]⟩) ∧
          (w.create (pathJoin [imageDir, pathBase url1]) = none →
            (downloadImage w url1 url2 imageDir).events
              = [Event.httpGet url1, Event.stat (pathJoin [imageDir, pathBase url1]),
                 Event.create (pathJoin [imageDir, pathBase url1]),
                 Event.copy (pathJoin [imageDir, pathBase url1]) body] ∧
            (bodyErr = none →
              (downloadImage w url1 url2 imageDir).result
                = Except.ok (pathJoin [imageDir, pathBase url1])) ∧
            (∀ err, bodyErr = some err →
              (downloadImage w url1 url2 imageDir).result
                = Except.error ("copy image: " ++ err))))) ∧
    -- the file stored when `url1` fails and `url2` is answered
    (∀ err1 status body bodyErr, w.httpGet url1 = Response.failed err1 →
        w.httpGet url2 = Response.answered status body bodyErr →
        (w.stat (pathJoin [imageDir, pathBase url2]) ≠ StatResult.notExist →
          downloadImage w url1 url2 imageDir
            = ⟨Except.ok (pathJoin [imageDir, pathBase url2]),
                [Event.httpGet url1, Event.httpGet url2,
                 Event.stat (pathJoin [imageDir, pathBase url2])]⟩) ∧
        (w.stat (pathJoin [imageDir, pathBase url2]) = StatResult.notExist →
          (∀ err, w.create (pathJoin [imageDir, pathBase url2]) = some err →
            downloadImage w url1 url2 imageDir
              = ⟨Except.error ("create image file: " ++ err),
                  [Event.httpGet url1, Event.httpGet url2,
                   Event.stat (pathJoin [imageDir, pathBase url2]),
                   Event.create (pathJoin [imageDir, pathBase url2])]⟩) ∧
          (w.create (pathJoin [imageDir, pathBase url2]) = none →
            (downloadImage w url1 url2 imageDir).events
              = [Event.httpGet url1, Event.httpGet url2,
                 Event.stat (pathJoin [imageDir, pathBase url2]),
                 Event.create (pathJoin [imageDir, pathBase url2]),
                 Event.copy (pathJoin [imageDir, pathBase url2]) body] ∧
            (bodyErr = none →
              (downloadImage w url1 url2 imageDir).result
                = Except.ok (pathJoin [imageDir, pathBase url2])) ∧
            (∀ err, bodyErr = some err →
              (downloadImage w url1 url2 imageDir).result
                = Except.error ("copy image: " ++ err))))) ∧
    downloadImage fallbackFreshWorld sampleUrl1 sampleUrl2 sampleDir
      = ⟨Except.ok "/home/user/Pictures/BingWallpaper/Sample_EN-US1234567890_1366x768.jpg",
          [Event.httpGet sampleUrl1, Event.httpGet sampleUrl2,
           Event.stat "/home/user/Pictures/BingWallpaper/Sample_EN-US1234567890_1366x768.jpg",
           Event.create "/home/user/Pictures/BingWallpaper/Sample_EN-US1234567890_1366x768.jpg",
           Event.copy "/home/user/Pictures/BingWallpaper/Sample_EN-US1234567890_1366x768.jpg"
             "JFIF fallback image bytes"]⟩ := by
  refine ⟨?_, ?_, ?_, ?_, ?_, ?_, ?_, ?_⟩
  · intro status body bodyErr h1
    refine ⟨?_, ?_⟩
    · have hg := storeImage_gets w url1 imageDir body bodyErr
      simp only [downloadImage, h1]
      simpa [getsOf] using hg
    · intro p hp
      simp only [downloadImage, h1] at hp
      exact storeImage_ok w url1 imageDir body bodyErr p hp
  · intro err h1
    cases h2 : w.httpGet url2 with
    | failed e2 => simp [downloadImage, h1, h2, getsOf]
    | answered status body bodyErr =>
      have hg := storeImage_gets w url2 imageDir body bodyErr
      simp only [downloadImage, h1, h2]
      simpa [getsOf] using hg
  · intro err status body bodyErr h1 h2 p hp
    simp only [downloadImage, h1, h2] at hp
    exact storeImage_ok w url2 imageDir body bodyErr p hp
  · intro err1 err2 h1 h2
    simp [downloadImage, h1, h2]
  · decide
  · intro status body bodyErr h1
    refine ⟨?_, ?_⟩
    · intro hs
      simp [downloadImage, h1, storeImage_kept w url1 imageDir body bodyErr hs]
    · intro hs
      refine ⟨?_, ?_⟩
      · intro err hc
        simp [downloadImage, h1, storeImage_create_fails w url1 imageDir body bodyErr err hs hc]
      · intro hc
        cases bodyErr with
        | none => simp [downloadImage, h1, storeImage_stored w url1 imageDir body hs hc]
        | some e => simp [downloadImage, h1, storeImage_copy_fails w url1 imageDir body e hs hc]
  · intro err1 status body bodyErr h1 h2
    refine ⟨?_, ?_⟩
    · intro hs
      simp [downloadImage, h1, h2, storeImage_kept w url2 imageDir body bodyErr hs]
    · intro hs
      refine ⟨?_, ?_⟩
      · intro err hc
        simp [downloadImage, h1, h2,
          storeImage_create_fails w url2 imageDir body bodyErr err hs hc]
      · intro hc
        cases bodyErr with
        | none => simp [downloadImage, h1, h2, storeImage_stored w url2 imageDir body hs hc]
        | some e =>
          simp [downloadImage, h1, h2, storeImage_copy_fails w url2 imageDir body e hs hc]
  · decide

theorem downloadImage_fallback_witness :
    "/home/user/Pictures/BingWallpaper/Sample_EN-US1234567890_1920x1080.jpg"
        = pathJoin [sampleDir, pathBase sampleUrl1] ∧
      getsOf (downloadImage fallbackCachedWorld sampleUrl1 sampleUrl2 sampleDir).events
        = [sampleUrl1, sampleUrl2] ∧
      (downloadImage fallbackFreshWorld sampleUrl1 sampleUrl2 sampleDir).events
        = [Event.httpGet sampleUrl1, Event.httpGet sampleUrl2,
           Event.stat (pathJoin [sampleDir, pathBase sampleUrl2]),
           Event.create (pathJoin [sampleDir, pathBase sampleUrl2]),
           Event.copy (pathJoin [sampleDir, pathBase sampleUrl2]) "JFIF fallback image bytes"] ∧
      (downloadImage fallbackFreshWorld sampleUrl1 sampleUrl2 sampleDir).result
        = Except.ok (pathJoin [sampleDir, pathBase sampleUrl2]) :=
  ⟨((downloadImage_fallback freshWorld sampleUrl1 sampleUrl2 sampleDir).1
      200 "JFIF image bytes" none (by decide)).2
      "/home/user/Pictures/BingWallpaper/Sample_EN-US1234567890_1920x1080.jpg" (by decide),
    (downloadImage_fallback fallbackCachedWorld sampleUrl1 sampleUrl2 sampleDir).2.1
      "dial tcp: no route to host" (by decide),
    ((((downloadImage_fallback fallbackFreshWorld sampleUrl1 sampleUrl2 sampleDir).2.2.2.2.2.2.1
      "dial tcp: no route to host" 200 "JFIF fallback image bytes" none
      (by decide) (by decide)).2 (by decide)).2 (by decide)).1,
    ((((downloadImage_fallback fallbackFreshWorld sampleUrl1 sampleUrl2 sampleDir).2.2.2.2.2.2.1
      "dial tcp: no route to host" 200 "JFIF fallback image bytes" none
      (by decide) (by decide)).2 (by decide)).2 (by decide)).2.1 rfl⟩

/-! ## Retention pruner -/

theorem filter_foldl_append (s : FileInfo → Bool) (infos acc : List FileInfo) :
    infos.foldl (fun filtered info => if s info then filtered ++ [info] else filtered) acc
      = acc ++ infos.filter s := by
  induction infos generalizing acc with
  | nil => simp
  | cons x xs ih =>
    simp only [List.foldl_cons, List.filter_cons]
    cases hx : s x
    · simpa using ih acc
    · simpa using ih (acc ++ [x])

theorem filter_eq_listFilter (infos : List FileInfo) (s : FileInfo → Bool) :
    filter infos s = infos.filter s := by
  simp [filter, filter_foldl_append]

theorem removalsOf_removeLoop (w : World) (dir : String) (files : List FileInfo) :
    removalsOf (removeLoop w dir files) = files.map (fun f => pathJoin [dir, f.Name]) := by
  induction files with
  | nil => simp [removeLoop, removalsOf]
  | cons f rest ih =>
    simp only [removalsOf] at ih
    cases h : w.remove (pathJoin [dir, f.Name]) <;>
      simp [removeLoop, removalsOf, h, ih]

theorem insertByLess_perm (less : FileInfo → FileInfo → Bool) (x : FileInfo)
    (xs : List FileInfo) : (insertByLess less x xs).Perm (x :: xs) := by
  induction xs with
  | nil => simp [insertByLess]
  | cons y ys ih =>
    simp only [insertByLess]
    split
    · exact List.Perm.refl _
    · exact (List.Perm.cons y ih).trans (List.Perm.swap x y ys)

theorem insertionSortByLess_perm (less : FileInfo → FileInfo → Bool) (xs : List FileInfo) :
    (insertionSortByLess less xs).Perm xs := by
  induction xs with
  | nil => simp [insertionSortByLess]
  | cons x xs ih =>
    simp only [insertionSortByLess, List.foldr_cons] at ih ⊢
    exact (insertByLess_perm less x _).trans (List.Perm.cons x ih)

/-- The removals that `cleanup` attempts: nothing when the listing fails, when
there are at most `nrKeeps` image files or when the slice bound is negative,
and otherwise the first `n - keeps` of the sorted image files, in that
order. -/
theorem cleanup_removals (w : World) (dir : String) (keeps : Nat) (listing : List FileInfo)
    (hread : w.readDir dir = Except.ok listing) :
    removalsOf (cleanup w dir keeps).events
      = if nrKeeps < (w.sortSlice modTimeBefore (filter listing isJpg)).length ∧
            keeps ≤ (w.sortSlice modTimeBefore (filter listing isJpg)).length then
          ((w.sortSlice modTimeBefore (filter listing isJpg)).take
            ((w.sortSlice modTimeBefore (filter listing isJpg)).length - keeps)).map
              (fun f => pathJoin [dir, f.Name])
        else [] := by
  simp only [cleanup, hread]
  by_cases h1 : nrKeeps < (w.sortSlice modTimeBefore (filter listing isJpg)).length
  · by_cases h2 : keeps ≤ (w.sortSlice modTimeBefore (filter listing isJpg)).length
    · have h3 : ¬ (w.sortSlice modTimeBefore (filter listing isJpg)).length < keeps := by omega
      have hl := removalsOf_removeLoop w dir
        ((w.sortSlice modTimeBefore (filter listing isJpg)).take
          ((w.sortSlice modTimeBefore (filter listing isJpg)).length - keeps))
      simp only [removalsOf] at hl
      simp [h1, h2, h3, removalsOf, hl]
    · have h3 : (w.sortSlice modTimeBefore (filter listing isJpg)).length < keeps := by omega
      simp [h1, h2, h3, removalsOf]
  · simp [h1, removalsOf]

theorem printsOf_removeLoop (w : World) (dir : String) (files : List FileInfo) :
    printsOf (removeLoop w dir files) = files.map (removalLine w dir) := by
  induction files with
  | nil => simp [removeLoop, printsOf]
  | cons f rest ih =>
    simp only [printsOf] at ih
    cases h : w.remove (pathJoin [dir, f.Name]) <;>
      simp [removeLoop, printsOf, removalLine, h, ih]

/-- What `cleanup` does when the guard lets the image files through and the
slice bound is in range (as in the call of `main`, where the keep count is
`nrKeeps`): the sorted image files split into the `n - keeps` oldest, whose
removal is attempted one after the other whatever fails, each followed by its
"deleted" line or its warning, and the `keeps` newest, none of which is older
than a removed one; the result is nil. -/
theorem cleanup_prunes_oldest (w : World) (dir : String) (keeps : Nat)
    (listing : List FileInfo)
    (hperm : ∀ xs, (w.sortSlice modTimeBefore xs).Perm xs)
    (hsorted : ∀ xs, (w.sortSlice modTimeBefore xs).Pairwise
      (fun a b => modTimeBefore b a = false))
    (hread : w.readDir dir = Except.ok listing)
    (hn : nrKeeps < (listing.filter isJpg).length)
    (hk : keeps ≤ (listing.filter isJpg).length) :
    ∃ removed kept : List FileInfo,
      (removed ++ kept).Perm (listing.filter isJpg) ∧
      removed.length = (listing.filter isJpg).length - keeps ∧
      kept.length = keeps ∧
      (∀ r, r ∈ removed → ∀ k, k ∈ kept → r.ModTime ≤ k.ModTime) ∧
      (cleanup w dir keeps).result = Ending.returned none ∧
      removalsOf (cleanup w dir keeps).events
        = removed.map (fun f => pathJoin [dir, f.Name]) ∧
      printsOf (cleanup w dir keeps).events = removed.map (removalLine w dir) := by
  have hf := filter_eq_listFilter listing isJpg
  have hp := hperm (listing.filter isJpg)
  have hs := hsorted (listing.filter isJpg)
  have hlen := hp.length_eq
  have h3 : ¬ (listing.filter isJpg).length < keeps := by omega
  have hcl : cleanup w dir keeps
      = ⟨Ending.returned none,
          Event.readDir dir :: removeLoop w dir
            ((w.sortSlice modTimeBefore (listing.filter isJpg)).take
              ((listing.filter isJpg).length - keeps))⟩ := by
    simp [cleanup, hread, hf, hlen, hn, h3]
  refine ⟨(w.sortSlice modTimeBefore (listing.filter isJpg)).take
      ((listing.filter isJpg).length - keeps),
    (w.sortSlice modTimeBefore (listing.filter isJpg)).drop
      ((listing.filter isJpg).length - keeps), ?_, ?_, ?_, ?_, ?_, ?_, ?_⟩
  · rw [List.take_append_drop]; exact hp
  · rw [List.length_take, hlen]; omega
  · rw [List.length_drop, hlen]; omega
  · intro r hr k hk2
    rw [← List.take_append_drop ((listing.filter isJpg).length - keeps)
      (w.sortSlice modTimeBefore (listing.filter isJpg))] at hs
    have := (List.pairwise_append.mp hs).2.2 r hr k hk2
    simpa [modTimeBefore] using this
  · rw [hcl]
  · rw [hcl]
    have hl := removalsOf_removeLoop w dir
      ((w.sortSlice modTimeBefore (listing.filter isJpg)).take
        ((listing.filter isJpg).length - keeps))
    simp only [removalsOf] at hl ⊢
    simpa using hl
  · rw [hcl]
    have hl := printsOf_removeLoop w dir
      ((w.sortSlice modTimeBefore (listing.filter isJpg)).take
        ((listing.filter isJpg).length - keeps))
    simp only [printsOf] at hl ⊢
    simpa using hl

theorem insertByLess_sorted (x : FileInfo) (xs : List FileInfo)
    (h : xs.Pairwise (fun a b => modTimeBefore b a = false)) :
    (insertByLess modTimeBefore x xs).Pairwise (fun a b => modTimeBefore b a = false) := by
  induction xs with
  | nil => simp [insertByLess]
  | cons y ys ih =>
    rw [List.pairwise_cons] at h
    simp only [insertByLess]
    split
    · rename_i hxy
      rw [List.pairwise_cons]
      refine ⟨?_, List.pairwise_cons.mpr h⟩
      intro z hz
      simp only [modTimeBefore, decide_eq_true_eq, decide_eq_false_iff_not, not_lt] at hxy ⊢
      rcases List.mem_cons.mp hz with rfl | hz
      · omega
      · have := h.1 z hz
        simp only [modTimeBefore, decide_eq_false_iff_not, not_lt] at this
        omega
    · rename_i hxy
      rw [List.pairwise_cons]
      refine ⟨?_, ih h.2⟩
      intro z hz
      rcases List.mem_cons.mp ((insertByLess_perm modTimeBefore x ys).mem_iff.mp hz) with rfl | hz
      · simpa using hxy
      · exact h.1 z hz

theorem insertionSortByLess_sorted (xs : List FileInfo) :
    (insertionSortByLess modTimeBefore xs).Pairwise (fun a b => modTimeBefore b a = false) := by
  induction xs with
  | nil => simp [insertionSortByLess]
  | cons x xs ih =>
    simp only [insertionSortByLess, List.foldr_cons] at ih ⊢
    exact insertByLess_sorted x _ ih

/-- C3: whatever the keep count and the modification times, every removal
that `cleanup` attempts is that of an entry of the listing whose lower-cased
name ends in ".jpg".  The candidates are exactly the entries that `filter`
keeps: those of the listing that satisfy the predicate, in listing order.
"a.JPG" qualifies and "a.png" does not; in a directory whose two oldest
entries are a text file and a PNG picture, only image files are removed. -/
theorem cleanup_only_jpg (w : World) (dir : String) (keeps : Nat)
    (hperm : ∀ xs, (w.sortSlice modTimeBefore xs).Perm xs) :
    (∀ p, p ∈ removalsOf (cleanup w dir keeps).events →
        ∃ listing f, w.readDir dir = Except.ok listing ∧ f ∈ listing ∧
          hasSuffix (toLower f.Name) ".jpg" = true ∧ p = pathJoin [dir, f.Name]) ∧
    (∀ listing : List FileInfo,
        filter listing isJpg
          = listing.filter (fun f => hasSuffix (toLower f.Name) ".jpg")) ∧
    (∀ t : Int, isJpg { Name := "a.JPG", ModTime := t } = true ∧
        isJpg { Name := "a.png", ModTime := t } = false) ∧
    removalsOf (cleanup mixedDirWorld sampleDir 10).events
      = ["/home/user/Pictures/BingWallpaper/b.JPG",
         "/home/user/Pictures/BingWallpaper/bing1.jpg"] := by
  refine ⟨?_, ?_, ?_, by decide⟩
  · intro p hp
    cases hread : w.readDir dir with
    | error err => simp [cleanup, hread, removalsOf] at hp
    | ok listing =>
      rw [cleanup_removals w dir keeps listing hread] at hp
      split at hp
      · obtain ⟨f, hf, rfl⟩ := List.mem_map.mp hp
        have hf2 : f ∈ filter listing isJpg :=
          (hperm _).mem_iff.mp (List.mem_of_mem_take hf)
        rw [filter_eq_listFilter, List.mem_filter] at hf2
        exact ⟨listing, f, rfl, hf2.1, hf2.2, rfl⟩
      · simp at hp
  · intro listing
    rw [filter_eq_listFilter]
    rfl
  · intro t
    have h1 : hasSuffix (toLower "a.JPG") ".jpg" = true := by decide
    have h2 : hasSuffix (toLower "a.png") ".jpg" = false := by decide
    exact ⟨h1, h2⟩

theorem cleanup_only_jpg_witness :
    ∃ listing f, mixedDirWorld.readDir sampleDir = Except.ok listing ∧ f ∈ listing ∧
      hasSuffix (toLower f.Name) ".jpg" = true ∧
      "/home/user/Pictures/BingWallpaper/b.JPG" = pathJoin [sampleDir, f.Name] :=
  (cleanup_only_jpg mixedDirWorld sampleDir 10
    (fun xs => insertionSortByLess_perm modTimeBefore xs)).1
    "/home/user/Pictures/BingWallpaper/b.JPG" (by decide)

/-- C1, evaluated where the code departs from it: with keep count 3 and five
image files, every removal succeeding, `cleanup` removes nothing, while the
claim has it remove the two oldest.  The guard compares the number of image
files with the constant `nrKeeps` instead of the keep count. -/
theorem cleanup_keeps_three_of_five :
    fiveImagesWorld.readDir sampleDir = Except.ok (jpgFiles 5) ∧
      (filter (jpgFiles 5) isJpg).length = 5 ∧
      (∀ p, fiveImagesWorld.remove p = none) ∧
      cleanup fiveImagesWorld sampleDir 3
        = ⟨Ending.returned none, [Event.readDir sampleDir]⟩ ∧
      removalsOf (cleanup fiveImagesWorld sampleDir 3).events = [] := by
  refine ⟨by decide, by decide, fun _ => rfl, by decide, by decide⟩

/-- C2, evaluated where the code departs from it: with keep count 12 and
eleven image files, `cleanup` does not return: the guard lets eleven files
through (more than `nrKeeps`) and the slice bound 11 - 12 is negative. -/
theorem cleanup_keeps_twelve_of_eleven :
    elevenImagesWorld.readDir sampleDir = Except.ok (jpgFiles 11) ∧
      (filter (jpgFiles 11) isJpg).length = 11 ∧
      cleanup elevenImagesWorld sampleDir 12
        = ⟨Ending.crashed "slice bounds out of range", [Event.readDir sampleDir]⟩ := by
  decide

/-- C9, evaluated where the code departs from it: with keep count 2 and four
image files, the oldest of which cannot be removed, `cleanup` attempts no
removal at all and prints neither a warning nor a "deleted" line, while the
claim has it attempt the removal of the two oldest. -/
theorem cleanup_keeps_two_of_four_locked :
    lockedImageWorld.readDir sampleDir = Except.ok (jpgFiles 4) ∧
      (filter (jpgFiles 4) isJpg).length = 4 ∧
      lockedImageWorld.remove (pathJoin [sampleDir, (jpgFile 0).Name]) ≠ none ∧
      cleanup lockedImageWorld sampleDir 2
        = ⟨Ending.returned none, [Event.readDir sampleDir]⟩ := by
  decide

/-! ## The pipeline -/

/-- C10, evaluated where the code departs from it: a metadata document
without any image unmarshals without error, `downloadMeta` returns a record
with no image, and `main` panics on `meta.Images[0]`. -/
theorem main_empty_metadata_crashes :
    (downloadMeta emptyMetaWorld sampleMetaUrl).result = Except.ok { Images := [] } ∧
      main emptyMetaWorld defaultFlags
        = ⟨Ending.crashed "index out of range [0] with length 0",
            [Event.dial bingService, Event.httpGet sampleMetaUrl]⟩ := by
  decide

end BingWallpaper
